import Mathlib

/-!
Shallow embedding of `subversion/libsvn_subr/svn_temp_serializer.c`.

The serializer flattens a tree of pointer-linked structures into one
contiguous byte buffer, replacing each pointer field by a byte offset
relative to the start of the immediately enclosing structure's image.

Modelling choices:
* Addresses of caller memory are `Nat` byte addresses; the null pointer is `0`.
* The growable `svn_stringbuf_t` buffer is a `List Nat` of its first `len`
  bytes.  Writes past `len` land in spare capacity and are not observable,
  which `List.set` (identity out of range) models exactly.
* `apr_size_t` slot writes store the word little-endian over `wordSize`
  bytes (`writeWord`); `readWord` decodes such a slot.
* The values the C code reads from caller-owned source memory
  (`*source_struct`, the child's `struct_size` bytes, a string's
  characters) are passed as explicit arguments, since that memory is
  outside the context's state.
* `assert` failures (fatal precondition faults) are modelled by returning
  `none`; a successful call returns `some` of the new context.
* The pad bytes introduced by `align_buffer_end` are unobserved spare
  capacity in the C code; they are modelled as `0`.
-/

namespace SvnTempSerializer

/-- Width in bytes of `apr_size_t` (an LP64 platform's native word). -/
def wordSize : Nat := 8

/-- `APR_ALIGN_DEFAULT` from apr: round `n` up to the next multiple of 8
(the platform's default scalar alignment). -/
def APR_ALIGN_DEFAULT (n : Nat) : Nat := (n + 7) / 8 * 8

/-- An element of the structure stack (`source_stack_t`): the address of the
source structure passed to init/push and the offset within the target buffer
to where the structure got copied.  The `upper` chain is the tail of the
context's stack list. -/
structure source_stack_t where
  source_struct : Nat
  target_offset : Nat
deriving DecidableEq, Repr

/-- Serialization context (`svn_temp_serializer__context_t`): the buffer
holding all serialized data and the stack of structures being serialized
(head is the top entry; `[]` is the NULL stack). The apr pool only services
allocations and carries no observable state. -/
structure svn_temp_serializer__context_t where
  buffer : List Nat
  source : List source_stack_t
deriving DecidableEq, Repr

abbrev Ctx := svn_temp_serializer__context_t

/-- Write the byte list `bs` into `buf` starting at position `off`.
Positions at or past `buf.length` lie in the stringbuf's spare capacity and
are not part of the observable buffer contents. -/
def writeBytesAt : List Nat → Nat → List Nat → List Nat
  | buf, _, [] => buf
  | buf, off, b :: bs => writeBytesAt (buf.set off b) (off + 1) bs

/-- Little-endian byte image of the word `v` (an `apr_size_t` store). -/
def wordBytes (v : Nat) : List Nat :=
  (List.range wordSize).map fun i => v / 256 ^ i % 256

/-- Store the word `v` at byte offset `off` of `buf`
(`*(apr_size_t*)(buffer->data + off) = v`). -/
def writeWord (buf : List Nat) (off : Nat) (v : Nat) : List Nat :=
  writeBytesAt buf off (wordBytes v)

/-- Read the word stored at byte offset `off` of `buf`
(`*(apr_size_t*)(buffer->data + off)`); absent bytes read as 0. -/
def readWord (buf : List Nat) (off : Nat) : Nat :=
  ((List.range wordSize).map fun i => buf.getD (off + i) 0 * 256 ^ i).sum

/-- `align_buffer_end`: make sure the serialized data length is a multiple of
the default alignment by padding the buffer up to the aligned length
(a no-op when already aligned). -/
def align_buffer_end (c : Ctx) : Ctx :=
  { c with
    buffer := c.buffer ++
      List.replicate (APR_ALIGN_DEFAULT c.buffer.length - c.buffer.length) 0 }

/-- The initial buffer capacity chosen by `svn_temp_serializer__init`:
`suggested_buffer_size < struct_size ? struct_size : suggested_buffer_size`. -/
def init_size (struct_size suggested_buffer_size : Nat) : Nat :=
  if suggested_buffer_size < struct_size then struct_size else suggested_buffer_size

/-- `svn_temp_serializer__init`: create the context; if `source_struct` is
non-null, push the root stack entry `{source_struct, target_offset = 0}` and
append the root structure's `struct_size` bytes (`struct_bytes`, the verbatim
content of the structure); otherwise start with an empty buffer and a NULL
stack. -/
def svn_temp_serializer__init (source_struct : Nat) (struct_bytes : List Nat) : Ctx :=
  if source_struct ≠ 0 then
    { buffer := struct_bytes, source := [⟨source_struct, 0⟩] }
  else
    { buffer := [], source := [] }

/-- `store_current_end_pointer`: patch the serialized copy of the pointer at
address `source_pointer` (a field of the structure on top of the stack) with
0 for a NULL child (`ptrVal = 0`) or with the offset, relative to the top
structure's image, at which the child is about to be appended.  Returns the
context unchanged when the stack is NULL (the root-struct case); `none`
models the `assert(context->buffer->len > ptr_offset)` fault. -/
def store_current_end_pointer (c : Ctx) (source_pointer : Nat) (ptrVal : Nat) :
    Option Ctx :=
  match c.source with
  | [] => some c
  | top :: _ =>
      let ptr_offset := source_pointer - top.source_struct + top.target_offset
      if c.buffer.length > ptr_offset then
        some { c with
          buffer := writeWord c.buffer ptr_offset
            (if ptrVal = 0 then 0 else c.buffer.length - top.target_offset) }
      else
        none

/-- `svn_temp_serializer__push`: begin serialization of the sub-structure
referenced by the pointer at address `source_struct` inside the current top
structure.  `ptrVal` is the pointer's value (`*source_struct`, 0 for NULL);
`content` is the child's `struct_size` bytes of original memory.  Aligns the
buffer when the child is non-null, patches the parent's slot, pushes the new
stack entry, and appends the child's bytes when non-null. -/
def svn_temp_serializer__push (c : Ctx) (source_struct : Nat) (ptrVal : Nat)
    (content : List Nat) : Option Ctx :=
  let c1 := if ptrVal ≠ 0 then align_buffer_end c else c
  match store_current_end_pointer c1 source_struct ptrVal with
  | none => none
  | some c2 =>
      let c3 : Ctx :=
        { c2 with source := ⟨ptrVal, c2.buffer.length⟩ :: c2.source }
      some (if ptrVal ≠ 0 then { c3 with buffer := c3.buffer ++ content } else c3)

/-- `svn_temp_serializer__pop`: remove the latest structure from the stack;
`none` models the `assert(context->source)` fault on an empty stack. -/
def svn_temp_serializer__pop (c : Ctx) : Option Ctx :=
  match c.source with
  | [] => none
  | _ :: rest => some { c with source := rest }

/-- `svn_temp_serializer__add_string`: patch the slot of the string pointer
at address `s` (value `ptrVal`, 0 for NULL) exactly as push does, then append
the string's characters `str` plus the NUL terminator when non-null.  No
stack entry is created and no alignment is applied. -/
def svn_temp_serializer__add_string (c : Ctx) (s : Nat) (ptrVal : Nat)
    (str : List Nat) : Option Ctx :=
  match store_current_end_pointer c s ptrVal with
  | none => none
  | some c2 =>
      some (if ptrVal ≠ 0 then { c2 with buffer := c2.buffer ++ str ++ [0] } else c2)

/-- `svn_temp_serializer__set_null`: overwrite the serialized representation
of the pointer at address `ptr` inside the current top structure with 0.
`none` models the faults `assert(context->source)` (empty stack) and
`assert(context->buffer->len > offset)` (slot outside serialized data). -/
def svn_temp_serializer__set_null (c : Ctx) (ptr : Nat) : Option Ctx :=
  match c.source with
  | [] => none
  | top :: _ =>
      let offset := ptr - top.source_struct + top.target_offset
      if c.buffer.length > offset then
        some { c with buffer := writeWord c.buffer offset 0 }
      else
        none

/-- `svn_temp_serializer__get`: return the data buffer that received the
serialized data (the Finish operation); a pure observer of the context. -/
def svn_temp_serializer__get (c : Ctx) : List Nat := c.buffer

/-- `svn_temp_deserializer__resolve`: replace the offset stored in a slot by
a proper pointer value.  The argument `ptr` is the slot's current contents
(an `apr_size_t`-width offset); the result is the slot's new contents —
`buffer + offset` for a nonzero offset, the null value for 0.  `none` models
the `assert(*ptr > buffer)` fault. -/
def svn_temp_deserializer__resolve (buffer : Nat) (ptr : Nat) : Option Nat :=
  if ptr ≠ 0 then
    if buffer + ptr > buffer then some (buffer + ptr) else none
  else
    some 0

/-- `svn_temp_deserializer__ptr`: compute the resolved pointer for the slot
contents `ptr` without mutating the slot (the slot is taken by const
reference in the source and never written). -/
def svn_temp_deserializer__ptr (buffer : Nat) (ptr : Nat) : Nat :=
  if ptr = 0 then 0 else buffer + ptr

/-- States reachable from `svn_temp_serializer__init` by successful
traversal operations.  `svn_temp_serializer__get` (Finish) is a pure
observer and does not change the context. -/
inductive Reachable : Ctx → Prop where
  | init : ∀ source_struct struct_bytes,
      Reachable (svn_temp_serializer__init source_struct struct_bytes)
  | push : ∀ c c' source_struct ptrVal content, Reachable c →
      svn_temp_serializer__push c source_struct ptrVal content = some c' →
      Reachable c'
  | pop : ∀ c c', Reachable c →
      svn_temp_serializer__pop c = some c' → Reachable c'
  | add_string : ∀ c c' s ptrVal str, Reachable c →
      svn_temp_serializer__add_string c s ptrVal str = some c' → Reachable c'
  | set_null : ∀ c c' ptr, Reachable c →
      svn_temp_serializer__set_null c ptr = some c' → Reachable c'

/-- The stack-offset invariant claimed by the spec, for every entry of the
structure stack: each entry's `target_offset` lies within the buffer. -/
def StackOK (c : Ctx) : Prop :=
  ∀ e ∈ c.source, e.target_offset ≤ c.buffer.length

/-! ### Byte-buffer lemmas -/

theorem writeBytesAt_length (bs : List Nat) :
    ∀ buf off, (writeBytesAt buf off bs).length = buf.length := by
  induction bs with
  | nil => intro buf off; rfl
  | cons b bs ih =>
      intro buf off
      rw [writeBytesAt, ih, List.length_set]

theorem writeBytesAt_getD_outside (bs : List Nat) :
    ∀ buf off j, (j < off ∨ off + bs.length ≤ j) →
      (writeBytesAt buf off bs).getD j 0 = buf.getD j 0 := by
  induction bs with
  | nil => intro buf off j _; rfl
  | cons b bs ih =>
      intro buf off j hj
      rw [writeBytesAt, ih _ _ _ (by simp at hj ⊢; omega)]
      have hne : off ≠ j := by simp at hj; omega
      simp [List.getD, List.getElem?_set_ne hne]

theorem writeBytesAt_getD_inside (bs : List Nat) :
    ∀ buf off i, i < bs.length → off + bs.length ≤ buf.length →
      (writeBytesAt buf off bs).getD (off + i) 0 = bs.getD i 0 := by
  induction bs with
  | nil => intro buf off i hi _; simp at hi
  | cons b bs ih =>
      intro buf off i hi hlen
      match i with
      | 0 =>
          rw [writeBytesAt,
            writeBytesAt_getD_outside bs _ _ _ (Or.inl (by omega))]
          have hofflt : off < buf.length := by simp at hlen; omega
          simp [List.getD, List.getElem?_set_self, hofflt]
      | Nat.succ j =>
          rw [writeBytesAt, show off + (j + 1) = (off + 1) + j by omega,
            ih _ _ _ (by simp at hi; omega) (by simp at hlen ⊢; omega)]
          rfl

theorem wordBytes_length (v : Nat) : (wordBytes v).length = wordSize := by
  simp [wordBytes]

theorem wordBytes_getD (v i : Nat) (hi : i < wordSize) :
    (wordBytes v).getD i 0 = v / 256 ^ i % 256 := by
  simp [wordBytes, List.getD, List.getElem?_map, List.getElem?_range, hi]

theorem writeWord_length (buf : List Nat) (off v : Nat) :
    (writeWord buf off v).length = buf.length := by
  rw [writeWord, writeBytesAt_length]

theorem writeWord_getD_outside (buf : List Nat) (off v j : Nat)
    (hj : j < off ∨ off + wordSize ≤ j) :
    (writeWord buf off v).getD j 0 = buf.getD j 0 := by
  rw [writeWord, writeBytesAt_getD_outside]
  rwa [wordBytes_length]

theorem base256_digit_sum (n : Nat) : ∀ v : Nat,
    ((List.range n).map fun i => v / 256 ^ i % 256 * 256 ^ i).sum = v % 256 ^ n := by
  induction n with
  | zero => intro v; simp [Nat.mod_one]
  | succ n ih =>
      intro v
      rw [List.range_succ_eq_map]
      simp only [List.map_cons, List.map_map, List.sum_cons, Function.comp_def,
        Nat.succ_eq_add_one]
      have h1 : ((List.range n).map fun i =>
            v / 256 ^ (i + 1) % 256 * 256 ^ (i + 1)).sum
          = 256 * ((List.range n).map fun i =>
            (v / 256) / 256 ^ i % 256 * 256 ^ i).sum := by
        rw [← List.sum_map_mul_left]
        congr 1
        apply List.map_congr_left
        intro i _
        rw [pow_succ', Nat.div_div_eq_div_mul, ← pow_succ']
        ring
      rw [h1, ih, pow_succ' 256 n, Nat.mod_mul]
      simp

theorem readWord_writeWord (buf : List Nat) (off v : Nat)
    (h : off + wordSize ≤ buf.length) :
    readWord (writeWord buf off v) off = v % 2 ^ 64 := by
  have hmap : (List.range wordSize).map
        (fun i => (writeWord buf off v).getD (off + i) 0 * 256 ^ i)
      = (List.range wordSize).map (fun i => v / 256 ^ i % 256 * 256 ^ i) := by
    apply List.map_congr_left
    intro i hi
    have hi' : i < wordSize := List.mem_range.mp hi
    have hw : (writeWord buf off v).getD (off + i) 0 = (wordBytes v).getD i 0 := by
      rw [writeWord]
      exact writeBytesAt_getD_inside _ _ _ _ (by rwa [wordBytes_length])
        (by rwa [wordBytes_length])
    rw [hw, wordBytes_getD _ _ hi']
  rw [readWord, hmap, base256_digit_sum]
  norm_num [wordSize]

theorem readWord_append_left (a b : List Nat) (off : Nat)
    (h : off + wordSize ≤ a.length) :
    readWord (a ++ b) off = readWord a off := by
  rw [readWord, readWord]
  congr 1
  apply List.map_congr_left
  intro i hi
  have hi' : i < wordSize := List.mem_range.mp hi
  have : off + i < a.length := by omega
  simp [List.getD, List.getElem?_append, this]

/-! ### Operation-shape lemmas -/

theorem le_APR_ALIGN_DEFAULT (n : Nat) : n ≤ APR_ALIGN_DEFAULT n := by
  rw [APR_ALIGN_DEFAULT]; omega

theorem APR_ALIGN_DEFAULT_of_aligned (n : Nat) (h : n % 8 = 0) :
    APR_ALIGN_DEFAULT n = n := by
  rw [APR_ALIGN_DEFAULT]; omega

theorem align_buffer_end_length (c : Ctx) :
    (align_buffer_end c).buffer.length = APR_ALIGN_DEFAULT c.buffer.length := by
  have := le_APR_ALIGN_DEFAULT c.buffer.length
  simp [align_buffer_end]
  omega

theorem align_buffer_end_source (c : Ctx) :
    (align_buffer_end c).source = c.source := rfl

theorem store_some_of_cons (c : Ctx) (p pv : Nat) (top : source_stack_t)
    (rest : List source_stack_t) (hs : c.source = top :: rest)
    (hlt : p - top.source_struct + top.target_offset < c.buffer.length) :
    store_current_end_pointer c p pv = some { c with
      buffer := writeWord c.buffer (p - top.source_struct + top.target_offset)
        (if pv = 0 then 0 else c.buffer.length - top.target_offset) } := by
  simp [store_current_end_pointer, hs, hlt]

theorem store_none_of_cons (c : Ctx) (p pv : Nat) (top : source_stack_t)
    (rest : List source_stack_t) (hs : c.source = top :: rest)
    (hge : ¬ p - top.source_struct + top.target_offset < c.buffer.length) :
    store_current_end_pointer c p pv = none := by
  simp [store_current_end_pointer, hs, hge]

theorem store_of_nil (c : Ctx) (p pv : Nat) (hs : c.source = []) :
    store_current_end_pointer c p pv = some c := by
  simp [store_current_end_pointer, hs]

theorem push_some_null (c : Ctx) (f : Nat) (content : List Nat)
    (top : source_stack_t) (rest : List source_stack_t)
    (hs : c.source = top :: rest)
    (hlt : f - top.source_struct + top.target_offset < c.buffer.length) :
    svn_temp_serializer__push c f 0 content = some
      { buffer := writeWord c.buffer (f - top.source_struct + top.target_offset) 0,
        source := ⟨0, c.buffer.length⟩ :: top :: rest } := by
  rw [svn_temp_serializer__push]
  simp only [ne_eq, not_true_eq_false, if_neg, ite_false, reduceIte]
  rw [store_some_of_cons c f 0 top rest hs hlt]
  simp [writeWord_length, hs]

theorem push_some_nonnull (c : Ctx) (f pv : Nat) (content : List Nat)
    (top : source_stack_t) (rest : List source_stack_t)
    (hs : c.source = top :: rest) (hpv : pv ≠ 0)
    (hlt : f - top.source_struct + top.target_offset <
      APR_ALIGN_DEFAULT c.buffer.length) :
    svn_temp_serializer__push c f pv content = some
      { buffer := writeWord (align_buffer_end c).buffer
            (f - top.source_struct + top.target_offset)
            (APR_ALIGN_DEFAULT c.buffer.length - top.target_offset) ++ content,
        source := ⟨pv, APR_ALIGN_DEFAULT c.buffer.length⟩ :: top :: rest } := by
  rw [svn_temp_serializer__push]
  simp only [hpv, ne_eq, not_false_eq_true, if_pos, ite_true, reduceIte]
  rw [store_some_of_cons (align_buffer_end c) f pv top rest
    (by rw [align_buffer_end_source, hs])
    (by rwa [align_buffer_end_length])]
  simp [writeWord_length, align_buffer_end_length, align_buffer_end_source, hs, hpv]

theorem push_of_nil (c : Ctx) (f pv : Nat) (content : List Nat)
    (hs : c.source = []) :
    svn_temp_serializer__push c f pv content = some
      (if pv = 0 then { c with source := [⟨0, c.buffer.length⟩] }
       else { buffer := (align_buffer_end c).buffer ++ content,
              source := [⟨pv, APR_ALIGN_DEFAULT c.buffer.length⟩] }) := by
  rw [svn_temp_serializer__push]
  by_cases hpv : pv = 0
  · subst hpv
    simp only [ne_eq, not_true_eq_false, reduceIte]
    rw [store_of_nil c f 0 hs]
    simp [hs]
  · simp only [hpv, ne_eq, not_false_eq_true, if_pos, reduceIte]
    rw [store_of_nil (align_buffer_end c) f pv (by rw [align_buffer_end_source, hs])]
    simp [hpv, align_buffer_end_length, align_buffer_end_source, hs]

theorem add_string_some_of_cons (c : Ctx) (s pv : Nat) (str : List Nat)
    (top : source_stack_t) (rest : List source_stack_t)
    (hs : c.source = top :: rest)
    (hlt : s - top.source_struct + top.target_offset < c.buffer.length) :
    svn_temp_serializer__add_string c s pv str = some
      { buffer := writeWord c.buffer (s - top.source_struct + top.target_offset)
            (if pv = 0 then 0 else c.buffer.length - top.target_offset)
          ++ (if pv = 0 then [] else str ++ [0]),
        source := top :: rest } := by
  rw [svn_temp_serializer__add_string, store_some_of_cons c s pv top rest hs hlt]
  by_cases hpv : pv = 0 <;> simp [hpv, hs]

theorem add_string_none_of_cons (c : Ctx) (s pv : Nat) (str : List Nat)
    (top : source_stack_t) (rest : List source_stack_t)
    (hs : c.source = top :: rest)
    (hge : ¬ s - top.source_struct + top.target_offset < c.buffer.length) :
    svn_temp_serializer__add_string c s pv str = none := by
  rw [svn_temp_serializer__add_string, store_none_of_cons c s pv top rest hs hge]

theorem add_string_of_nil (c : Ctx) (s pv : Nat) (str : List Nat)
    (hs : c.source = []) :
    svn_temp_serializer__add_string c s pv str
      = some { c with buffer := c.buffer ++ (if pv = 0 then [] else str ++ [0]) } := by
  rw [svn_temp_serializer__add_string, store_of_nil c s pv hs]
  by_cases hpv : pv = 0 <;> simp [hpv]

theorem set_null_some_of_cons (c : Ctx) (p : Nat)
    (top : source_stack_t) (rest : List source_stack_t)
    (hs : c.source = top :: rest)
    (hlt : p - top.source_struct + top.target_offset < c.buffer.length) :
    svn_temp_serializer__set_null c p = some { c with
      buffer := writeWord c.buffer (p - top.source_struct + top.target_offset) 0 } := by
  simp [svn_temp_serializer__set_null, hs, hlt]

/-! ### The stack-offset invariant (reachability) -/

theorem stackOK_init (source_struct : Nat) (struct_bytes : List Nat) :
    StackOK (svn_temp_serializer__init source_struct struct_bytes) := by
  intro e he
  rw [svn_temp_serializer__init] at he
  by_cases h : source_struct = 0 <;> simp [h] at he
  subst he; simp

theorem stackOK_push (c c' : Ctx) (f pv : Nat) (content : List Nat)
    (hok : StackOK c) (h : svn_temp_serializer__push c f pv content = some c') :
    StackOK c' := by
  intro e he
  match hs : c.source with
  | [] =>
      rw [push_of_nil c f pv content hs] at h
      by_cases hpv : pv = 0
      · simp only [hpv, reduceIte, Option.some_inj] at h
        subst h; simp at he; subst he; simp
      · simp only [hpv, reduceIte, Option.some_inj] at h
        subst h
        simp at he ⊢
        subst he
        simp [align_buffer_end_length]
  | top :: rest =>
      by_cases hlt : f - top.source_struct + top.target_offset <
          (if pv = 0 then c.buffer.length else APR_ALIGN_DEFAULT c.buffer.length)
      · by_cases hpv : pv = 0
        · subst hpv
          simp only [reduceIte] at hlt
          rw [push_some_null c f content top rest hs hlt] at h
          cases h
          simp only [List.mem_cons] at he
          rcases he with he | he
          · subst he; simp [writeWord_length]
          · have := hok e (by rw [hs]; simpa using he)
            simpa [writeWord_length] using this
        · simp only [hpv, reduceIte] at hlt
          rw [push_some_nonnull c f pv content top rest hs hpv hlt] at h
          cases h
          simp only [List.mem_cons] at he
          have hA := le_APR_ALIGN_DEFAULT c.buffer.length
          rcases he with he | he
          · subst he
            simp [writeWord_length, align_buffer_end_length]
          · have := hok e (by rw [hs]; simpa using he)
            simp [writeWord_length, align_buffer_end_length]
            omega
      · exfalso
        rw [svn_temp_serializer__push] at h
        by_cases hpv : pv = 0
        · subst hpv
          simp only [ne_eq, not_true_eq_false, reduceIte] at h hlt
          rw [store_none_of_cons c f 0 top rest hs hlt] at h
          exact Option.noConfusion h
        · simp only [hpv, ne_eq, not_false_eq_true, reduceIte] at h hlt
          rw [store_none_of_cons (align_buffer_end c) f pv top rest
            (by rw [align_buffer_end_source, hs])
            (by rwa [align_buffer_end_length])] at h
          exact Option.noConfusion h

theorem stackOK_pop (c c' : Ctx) (hok : StackOK c)
    (h : svn_temp_serializer__pop c = some c') : StackOK c' := by
  intro e he
  match hs : c.source with
  | [] => rw [svn_temp_serializer__pop, hs] at h; exact Option.noConfusion h
  | top :: rest =>
      rw [svn_temp_serializer__pop, hs] at h
      cases h
      exact hok e (by rw [hs]; exact List.mem_cons_of_mem _ he)

theorem stackOK_add_string (c c' : Ctx) (s pv : Nat) (str : List Nat)
    (hok : StackOK c) (h : svn_temp_serializer__add_string c s pv str = some c') :
    StackOK c' := by
  intro e he
  match hs : c.source with
  | [] =>
      rw [add_string_of_nil c s pv str hs] at h
      cases h
      simp only [hs] at he
      simp at he
  | top :: rest =>
      by_cases hlt : s - top.source_struct + top.target_offset < c.buffer.length
      · rw [add_string_some_of_cons c s pv str top rest hs hlt] at h
        cases h
        have := hok e (by rw [hs]; simpa using he)
        simp [writeWord_length]
        omega
      · rw [add_string_none_of_cons c s pv str top rest hs hlt] at h
        exact Option.noConfusion h

theorem stackOK_set_null (c c' : Ctx) (p : Nat)
    (hok : StackOK c) (h : svn_temp_serializer__set_null c p = some c') :
    StackOK c' := by
  intro e he
  match hs : c.source with
  | [] => rw [svn_temp_serializer__set_null, hs] at h; exact Option.noConfusion h
  | top :: rest =>
      by_cases hlt : p - top.source_struct + top.target_offset < c.buffer.length
      · rw [set_null_some_of_cons c p top rest hs hlt] at h
        cases h
        have := hok e (by simpa using he)
        simpa [writeWord_length] using this
      · rw [svn_temp_serializer__set_null, hs] at h
        simp [hlt] at h

theorem stackOK_of_reachable (c : Ctx) (h : Reachable c) : StackOK c := by
  induction h with
  | init s bytes => exact stackOK_init s bytes
  | push c c' f pv content _ hstep ih => exact stackOK_push c c' f pv content ih hstep
  | pop c c' _ hstep ih => exact stackOK_pop c c' ih hstep
  | add_string c c' s pv str _ hstep ih => exact stackOK_add_string c c' s pv str ih hstep
  | set_null c c' p _ hstep ih => exact stackOK_set_null c c' p ih hstep

/-! ### Claim theorems -/

/-- C1: After a successful `svn_temp_serializer__push` on a context whose
structure stack is non-empty with top entry `top`, the patch slot at byte
offset `(f - top.source_struct) + top.target_offset` of the buffer holds 0
when the child pointer is null, and otherwise holds the buffer length at the
moment of the patch (post-alignment) minus `top.target_offset` — the offset
of the child's upcoming image relative to the start of the immediately
enclosing structure's serialized image, never relative to the blob's start.
The range hypothesis `hin` states that the whole word-sized slot lies inside
the already-serialized data (the C code's field is a pointer inside the
copied structure), and `hsmall` that the offset fits in an `apr_size_t`. -/
theorem push_slot_value (c c' : Ctx) (top : source_stack_t)
    (rest : List source_stack_t) (f pv : Nat) (content : List Nat)
    (hs : c.source = top :: rest)
    (hpush : svn_temp_serializer__push c f pv content = some c')
    (hin : f - top.source_struct + top.target_offset + wordSize ≤
      (if pv = 0 then c.buffer.length else APR_ALIGN_DEFAULT c.buffer.length))
    (hsmall : APR_ALIGN_DEFAULT c.buffer.length - top.target_offset < 2 ^ 64) :
    readWord c'.buffer (f - top.source_struct + top.target_offset)
      = if pv = 0 then 0
        else APR_ALIGN_DEFAULT c.buffer.length - top.target_offset := by
  have hw : wordSize = 8 := rfl
  by_cases hpv : pv = 0
  · subst hpv
    simp only [reduceIte] at hin ⊢
    have hlt : f - top.source_struct + top.target_offset < c.buffer.length := by
      omega
    rw [push_some_null c f content top rest hs hlt] at hpush
    cases hpush
    show readWord (writeWord c.buffer (f - top.source_struct + top.target_offset) 0)
        (f - top.source_struct + top.target_offset) = 0
    rw [readWord_writeWord c.buffer _ 0 hin]
    simp
  · simp only [hpv, reduceIte] at hin ⊢
    have hlt : f - top.source_struct + top.target_offset <
        APR_ALIGN_DEFAULT c.buffer.length := by omega
    rw [push_some_nonnull c f pv content top rest hs hpv hlt] at hpush
    cases hpush
    rw [readWord_append_left _ _ _
      (by rw [writeWord_length, align_buffer_end_length]; exact hin)]
    rw [readWord_writeWord _ _ _ (by rw [align_buffer_end_length]; exact hin)]
    exact Nat.mod_eq_of_lt hsmall

theorem push_slot_value_witness :
    readWord (⟨[16, 0, 0, 0, 0, 0, 0, 0, 7, 7, 7, 7, 7, 7, 7, 7,
        9, 9, 9, 9, 9, 9, 9, 9], [⟨2, 16⟩, ⟨1, 0⟩]⟩ : Ctx).buffer (1 - 1 + 0)
      = if 2 = 0 then 0
        else APR_ALIGN_DEFAULT (svn_temp_serializer__init 1
          (List.replicate 16 7)).buffer.length - 0 :=
  push_slot_value (svn_temp_serializer__init 1 (List.replicate 16 7))
    ⟨[16, 0, 0, 0, 0, 0, 0, 0, 7, 7, 7, 7, 7, 7, 7, 7,
      9, 9, 9, 9, 9, 9, 9, 9], [⟨2, 16⟩, ⟨1, 0⟩]⟩
    ⟨1, 0⟩ [] 1 2 (List.replicate 8 9) (by decide) (by decide) (by decide)
    (by decide)

/-- C2 counterexample: a Push against an empty structure stack is NOT a
fatal precondition failure in the code — at this concrete input (a context
created with no root structure) the push returns a new context rather than
faulting, contrary to the claim. -/
theorem push_empty_stack_succeeds_cex :
    (svn_temp_serializer__push (svn_temp_serializer__init 0 []) 16 1
      [7, 7, 7, 7, 7, 7, 7, 7]).isSome = true := by decide

/-- C2 amended: a Push against an empty structure stack is not a fault:
`store_current_end_pointer` skips the slot patch (there is no parent
structure to patch) and the pushed entry becomes the root; by contrast,
SetNull against an empty stack is a fatal precondition failure. -/
theorem push_empty_stack_no_fault (c : Ctx) (f pv : Nat) (content : List Nat)
    (hs : c.source = []) :
    (svn_temp_serializer__push c f pv content).isSome = true ∧
    svn_temp_serializer__set_null c f = none := by
  refine ⟨?_, ?_⟩
  · rw [push_of_nil c f pv content hs]; rfl
  · rw [svn_temp_serializer__set_null, hs]

theorem push_empty_stack_no_fault_witness :
    (svn_temp_serializer__push (svn_temp_serializer__init 0 []) 3 0 []).isSome
      = true ∧
    svn_temp_serializer__set_null (svn_temp_serializer__init 0 []) 3 = none :=
  push_empty_stack_no_fault (svn_temp_serializer__init 0 []) 3 0 [] (by decide)

/-- C3: for every buffer base address and slot contents, the read-only
accessor `svn_temp_deserializer__ptr` returns exactly the value that the
in-place accessor `svn_temp_deserializer__resolve` stores into the slot —
`base + offset` for a nonzero stored offset, null (0) for a zero offset —
and the in-place assert never fires.  `svn_temp_deserializer__ptr` is a pure
function of the slot contents (the slot is const in the source), so it never
mutates the slot. -/
theorem resolve_ptr_agree : ∀ buffer ptr : Nat,
    svn_temp_deserializer__resolve buffer ptr
      = some (svn_temp_deserializer__ptr buffer ptr) := by
  intro buffer ptr
  rcases Nat.eq_zero_or_pos ptr with h | h
  · simp [svn_temp_deserializer__resolve, svn_temp_deserializer__ptr, h]
  · have hne : ptr ≠ 0 := by omega
    have hgt : buffer + ptr > buffer := by omega
    simp [svn_temp_deserializer__resolve, svn_temp_deserializer__ptr, hne, hgt]

/-- C4: alignment padding policy.  `APR_ALIGN_DEFAULT` is a no-op on an
already-aligned length; a push of a null child changes neither padding nor
length; a push of a non-null child first pads the length up to the default
alignment boundary and then appends the child's bytes; and
`svn_temp_serializer__add_string` never pads — the final length is the old
length plus exactly the string payload (content plus NUL) or nothing. -/
theorem alignment_padding_policy :
    (∀ n : Nat, n % 8 = 0 → APR_ALIGN_DEFAULT n = n) ∧
    (∀ c c' : Ctx, ∀ f : Nat, ∀ content : List Nat,
      svn_temp_serializer__push c f 0 content = some c' →
      c'.buffer.length = c.buffer.length) ∧
    (∀ c c' : Ctx, ∀ f pv : Nat, ∀ content : List Nat, pv ≠ 0 →
      svn_temp_serializer__push c f pv content = some c' →
      c'.buffer.length = APR_ALIGN_DEFAULT c.buffer.length + content.length) ∧
    (∀ c c' : Ctx, ∀ s pv : Nat, ∀ str : List Nat,
      svn_temp_serializer__add_string c s pv str = some c' →
      c'.buffer.length = c.buffer.length
        + (if pv = 0 then 0 else str.length + 1)) := by
  refine ⟨?_, ?_, ?_, ?_⟩
  · intro n h; rw [APR_ALIGN_DEFAULT]; omega
  · intro c c' f content h
    match hs : c.source with
    | [] =>
        rw [push_of_nil c f 0 content hs] at h
        simp only [reduceIte, Option.some_inj] at h
        subst h; rfl
    | top :: rest =>
        by_cases hlt : f - top.source_struct + top.target_offset < c.buffer.length
        · rw [push_some_null c f content top rest hs hlt] at h
          cases h
          simp [writeWord_length]
        · rw [svn_temp_serializer__push] at h
          simp only [ne_eq, not_true_eq_false, reduceIte] at h
          rw [store_none_of_cons c f 0 top rest hs hlt] at h
          exact Option.noConfusion h
  · intro c c' f pv content hpv h
    match hs : c.source with
    | [] =>
        rw [push_of_nil c f pv content hs] at h
        simp only [hpv, reduceIte, Option.some_inj] at h
        subst h
        simp [align_buffer_end_length]
    | top :: rest =>
        by_cases hlt : f - top.source_struct + top.target_offset <
            APR_ALIGN_DEFAULT c.buffer.length
        · rw [push_some_nonnull c f pv content top rest hs hpv hlt] at h
          cases h
          simp [writeWord_length, align_buffer_end_length]
        · rw [svn_temp_serializer__push] at h
          simp only [hpv, ne_eq, not_false_eq_true, reduceIte] at h
          rw [store_none_of_cons (align_buffer_end c) f pv top rest
            (by rw [align_buffer_end_source, hs])
            (by rwa [align_buffer_end_length])] at h
          exact Option.noConfusion h
  · intro c c' s pv str h
    match hs : c.source with
    | [] =>
        rw [add_string_of_nil c s pv str hs] at h
        cases h
        by_cases hpv : pv = 0 <;> simp [hpv]
    | top :: rest =>
        by_cases hlt : s - top.source_struct + top.target_offset < c.buffer.length
        · rw [add_string_some_of_cons c s pv str top rest hs hlt] at h
          cases h
          by_cases hpv : pv = 0 <;> simp [hpv, writeWord_length]
        · rw [add_string_none_of_cons c s pv str top rest hs hlt] at h
          exact Option.noConfusion h

theorem alignment_padding_policy_witness :
    (⟨[0, 0, 0, 0, 0, 0, 0, 0, 7, 7, 7, 7, 7, 7, 7, 7],
        [⟨0, 16⟩, ⟨1, 0⟩]⟩ : Ctx).buffer.length
      = (svn_temp_serializer__init 1 (List.replicate 16 7)).buffer.length :=
  alignment_padding_policy.2.1 (svn_temp_serializer__init 1 (List.replicate 16 7))
    ⟨[0, 0, 0, 0, 0, 0, 0, 0, 7, 7, 7, 7, 7, 7, 7, 7], [⟨0, 16⟩, ⟨1, 0⟩]⟩
    1 [] (by decide)

/-- C5: `svn_temp_serializer__init` chooses the initial buffer capacity
`max(suggested_buffer_size, struct_size)` (the `init_size` computation); with
a non-null root structure it copies the root's bytes verbatim to offset 0 of
the buffer and pushes the single stack entry `{root, target_offset = 0}`
(`struct_bytes` are the root's `struct_size` bytes of original memory); with
a null root the stack starts empty and the buffer has length 0. -/
theorem init_spec :
    (∀ struct_size suggested_buffer_size : Nat,
      init_size struct_size suggested_buffer_size
        = max suggested_buffer_size struct_size) ∧
    (∀ source_struct : Nat, ∀ struct_bytes : List Nat, source_struct ≠ 0 →
      svn_temp_serializer__init source_struct struct_bytes
        = { buffer := struct_bytes, source := [⟨source_struct, 0⟩] }) ∧
    (∀ struct_bytes : List Nat,
      svn_temp_serializer__init 0 struct_bytes
        = { buffer := [], source := [] }) := by
  refine ⟨?_, ?_, ?_⟩
  · intro s b
    rw [init_size]
    split <;> omega
  · intro root struct_bytes h
    simp [svn_temp_serializer__init, h]
  · intro struct_bytes
    simp [svn_temp_serializer__init]

theorem init_spec_witness :
    svn_temp_serializer__init 5 [1, 2]
      = { buffer := [1, 2], source := [⟨5, 0⟩] } :=
  init_spec.2.1 5 [1, 2] (by decide)

/-- C6: in every context reachable from `svn_temp_serializer__init` by
successful push / pop / add_string / set_null operations (the get/Finish
operation reads the buffer without changing the context), a non-empty
structure stack's top entry satisfies `target_offset ≤ buffer.length`. -/
theorem reachable_top_offset_le (c : Ctx) (top : source_stack_t)
    (rest : List source_stack_t) (hr : Reachable c)
    (hs : c.source = top :: rest) :
    top.target_offset ≤ c.buffer.length :=
  stackOK_of_reachable c hr top (by rw [hs]; exact List.mem_cons_self _ _)

theorem reachable_top_offset_le_witness :
    (⟨1, 0⟩ : source_stack_t).target_offset
      ≤ (svn_temp_serializer__init 1 [5]).buffer.length :=
  reachable_top_offset_le (svn_temp_serializer__init 1 [5]) ⟨1, 0⟩ []
    (Reachable.init 1 [5]) (by decide)

/-- C7: `svn_temp_serializer__set_null` faults on an empty stack, and faults
when the patch-slot offset `(p - top.source_struct) + top.target_offset` is
not strictly below the buffer length; on success it leaves the stack and the
buffer length unchanged, writes 0 into the slot, and leaves every byte
outside the word-sized slot unchanged. -/
theorem set_null_spec :
    (∀ c : Ctx, ∀ p : Nat, c.source = [] →
      svn_temp_serializer__set_null c p = none) ∧
    (∀ c : Ctx, ∀ p : Nat, ∀ top : source_stack_t, ∀ rest : List source_stack_t,
      c.source = top :: rest →
      ¬ p - top.source_struct + top.target_offset < c.buffer.length →
      svn_temp_serializer__set_null c p = none) ∧
    (∀ c c' : Ctx, ∀ p : Nat, ∀ top : source_stack_t, ∀ rest : List source_stack_t,
      c.source = top :: rest →
      svn_temp_serializer__set_null c p = some c' →
      c'.source = c.source ∧
      c'.buffer.length = c.buffer.length ∧
      (p - top.source_struct + top.target_offset + wordSize ≤ c.buffer.length →
        readWord c'.buffer (p - top.source_struct + top.target_offset) = 0) ∧
      (∀ j : Nat, j < p - top.source_struct + top.target_offset ∨
          p - top.source_struct + top.target_offset + wordSize ≤ j →
        c'.buffer.getD j 0 = c.buffer.getD j 0)) := by
  refine ⟨?_, ?_, ?_⟩
  · intro c p hs
    rw [svn_temp_serializer__set_null, hs]
  · intro c p top rest hs hge
    rw [svn_temp_serializer__set_null, hs]
    simp [hge]
  · intro c c' p top rest hs hcall
    by_cases hlt : p - top.source_struct + top.target_offset < c.buffer.length
    · rw [set_null_some_of_cons c p top rest hs hlt] at hcall
      cases hcall
      refine ⟨rfl, by simp [writeWord_length], ?_, ?_⟩
      · intro hin
        show readWord
          (writeWord c.buffer (p - top.source_struct + top.target_offset) 0)
          (p - top.source_struct + top.target_offset) = 0
        rw [readWord_writeWord c.buffer _ 0 hin]
        simp
      · intro j hj
        exact writeWord_getD_outside c.buffer _ 0 j hj
    · rw [svn_temp_serializer__set_null, hs] at hcall
      simp [hlt] at hcall

theorem set_null_spec_witness :
    readWord (⟨[7, 7, 7, 7, 7, 7, 7, 7, 0, 0, 0, 0, 0, 0, 0, 0],
        [⟨1, 0⟩]⟩ : Ctx).buffer (9 - 1 + 0) = 0 :=
  ((set_null_spec.2.2 (svn_temp_serializer__init 1 (List.replicate 16 7))
      ⟨[7, 7, 7, 7, 7, 7, 7, 7, 0, 0, 0, 0, 0, 0, 0, 0], [⟨1, 0⟩]⟩ 9 ⟨1, 0⟩ []
      (by decide) (by decide)).2.2.1) (by decide)

/-- C8: a successful `svn_temp_serializer__add_string` on a non-empty stack
leaves the stack identical, appends exactly the string's bytes plus the NUL
terminator (`str.length + 1` bytes) for a non-null string and nothing for a
null one, and patches the slot through the same
`store_current_end_pointer` computation as push: the slot at
`(s - top.source_struct) + top.target_offset` receives 0 for a null string
and `buffer.length - top.target_offset` otherwise (no alignment step). -/
theorem add_string_spec (c c' : Ctx) (s pv : Nat) (str : List Nat)
    (top : source_stack_t) (rest : List source_stack_t)
    (hs : c.source = top :: rest)
    (hcall : svn_temp_serializer__add_string c s pv str = some c') :
    c'.source = c.source ∧
    c'.buffer.length = c.buffer.length
      + (if pv = 0 then 0 else str.length + 1) ∧
    (pv ≠ 0 → c'.buffer.drop c.buffer.length = str ++ [0]) ∧
    (s - top.source_struct + top.target_offset + wordSize ≤ c.buffer.length →
      c.buffer.length - top.target_offset < 2 ^ 64 →
      readWord c'.buffer (s - top.source_struct + top.target_offset)
        = if pv = 0 then 0 else c.buffer.length - top.target_offset) := by
  by_cases hlt : s - top.source_struct + top.target_offset < c.buffer.length
  · rw [add_string_some_of_cons c s pv str top rest hs hlt] at hcall
    cases hcall
    refine ⟨by rw [hs], ?_, ?_, ?_⟩
    · by_cases hpv : pv = 0 <;> simp [hpv, writeWord_length]
    · intro hpv
      simp only [hpv, reduceIte]
      show ((writeWord c.buffer (s - top.source_struct + top.target_offset)
          (c.buffer.length - top.target_offset)) ++ (str ++ [0])).drop
          c.buffer.length = str ++ [0]
      exact List.drop_left' (writeWord_length c.buffer
        (s - top.source_struct + top.target_offset)
        (c.buffer.length - top.target_offset))
    · intro hin hsmall
      show readWord
          (writeWord c.buffer (s - top.source_struct + top.target_offset)
            (if pv = 0 then 0 else c.buffer.length - top.target_offset)
           ++ (if pv = 0 then [] else str ++ [0]))
          (s - top.source_struct + top.target_offset)
        = if pv = 0 then 0 else c.buffer.length - top.target_offset
      rw [readWord_append_left _ _ _
        (by rw [writeWord_length]; exact hin)]
      rw [readWord_writeWord c.buffer _ _ hin]
      by_cases hpv : pv = 0
      · simp [hpv]
      · simp only [hpv, reduceIte]
        exact Nat.mod_eq_of_lt hsmall
  · rw [add_string_none_of_cons c s pv str top rest hs hlt] at hcall
    exact Option.noConfusion hcall

theorem add_string_spec_witness :
    readWord (⟨[16, 0, 0, 0, 0, 0, 0, 0, 7, 7, 7, 7, 7, 7, 7, 7, 104, 0],
        [⟨1, 0⟩]⟩ : Ctx).buffer (1 - 1 + 0)
      = if 3 = 0 then 0
        else (svn_temp_serializer__init 1
          (List.replicate 16 7)).buffer.length - 0 :=
  ((add_string_spec (svn_temp_serializer__init 1 (List.replicate 16 7))
      ⟨[16, 0, 0, 0, 0, 0, 0, 0, 7, 7, 7, 7, 7, 7, 7, 7, 104, 0], [⟨1, 0⟩]⟩
      1 3 [104] ⟨1, 0⟩ [] (by decide) (by decide)).2.2.2) (by decide) (by decide)

/-- C9: `svn_temp_serializer__pop` faults exactly when the stack is empty;
on a non-empty stack it replaces the top entry by its parent and leaves the
buffer — length and bytes — untouched. -/
theorem pop_spec (c : Ctx) :
    (svn_temp_serializer__pop c = none ↔ c.source = []) ∧
    (∀ top : source_stack_t, ∀ rest : List source_stack_t,
      c.source = top :: rest →
      svn_temp_serializer__pop c
        = some { buffer := c.buffer, source := rest }) := by
  rcases hs : c.source with _ | ⟨top, rest⟩
  · refine ⟨?_, ?_⟩
    · rw [svn_temp_serializer__pop, hs]
      simp
    · intro top rest h
      exact List.noConfusion h
  · refine ⟨?_, ?_⟩
    · rw [svn_temp_serializer__pop, hs]
      simp [hs]
    · intro top' rest' h
      cases h
      rw [svn_temp_serializer__pop, hs]

theorem pop_spec_witness :
    svn_temp_serializer__pop (svn_temp_serializer__init 1 [5])
      = some { buffer := [5], source := [] } := by
  have h := (pop_spec (svn_temp_serializer__init 1 [5])).2 ⟨1, 0⟩ [] (by decide)
  simpa using h

/-- C10: `svn_temp_serializer__add_string` against an empty structure stack
does not fault and patches no slot — the old buffer contents stay as an
untouched prefix; a non-null string's bytes plus the NUL terminator are
appended at the current end of the buffer (offset 0 for a context created
with no root structure, whose buffer is empty), and a null string leaves the
buffer entirely unchanged (the appended suffix is empty). -/
theorem add_string_empty_stack (c : Ctx) (s pv : Nat) (str : List Nat)
    (hs : c.source = []) :
    svn_temp_serializer__add_string c s pv str
      = some { c with
          buffer := c.buffer ++ (if pv = 0 then [] else str ++ [0]) } :=
  add_string_of_nil c s pv str hs

theorem add_string_empty_stack_witness :
    svn_temp_serializer__add_string (svn_temp_serializer__init 0 []) 99 5
        [104, 105]
      = some { buffer := [104, 105, 0], source := [] } := by
  have h := add_string_empty_stack (svn_temp_serializer__init 0 []) 99 5
    [104, 105] (by decide)
  simpa using h

end SvnTempSerializer
